import Mathlib

/-!
Verification of the peer-transport lifecycle and registry layer
(`packages/core/src/transport/AbstractTransport.ts` of the ataraxia
repository).

The class `AbstractTransport` is embedded shallowly: its mutable fields
become a `TransportState` record, each method becomes a state-passing
function returning the new state together with the value it returns and
the list of observable outputs it produces (transport-level connect and
disconnect events, and `peer.disconnect()` requests issued by `stop`).
Peer identity is a `Nat` standing for the identity of a `Peer` instance.

The closures registered by `addPeer` on a peer's connect and disconnect
notification points are modelled by counting registrations per peer:
delivering a notification runs the registered handler once per
registration, in registration order, exactly as the event dispatch of the
`atvik` events used by `Peer` does.

On top of the transport-local model sits a small world model (`WorldState`,
`wstep`, `wrun`): the environment (the concrete transport and the peers)
may start or stop the transport, register a peer, or flip a peer's
connected state and deliver the corresponding notification.  Ghost fields
record each peer's current connected state and whether a peer was ever
registered while the transport was started, so that reachability claims
can be stated.
-/

set_option autoImplicit false

namespace Ataraxia

/-- Modelled from the spec: `encodeId` (imported from `../id`, whose source
is not part of the visible repository) produces the stable textual encoding
of a binary identifier.  The spec's end-to-end scenario encodes the bytes
`0x01020304` as `"AQIDBA"`, i.e. unpadded standard base64, which is what
this definition implements.  Bytes are `Nat` values below 256. -/
def base64Alphabet : List Char :=
  "ABCDEFGHIJKLMNOPQRSTUVWXYZabcdefghijklmnopqrstuvwxyz0123456789+/".toList

/-- Character of the base64 alphabet at index `n` (out-of-range defaults
are irrelevant: `encodeChunk` only produces indices below 64). -/
def b64char (n : Nat) : Char :=
  base64Alphabet.getD n 'A'

/-- Encode a final group of at most three bytes, without padding. -/
def encodeChunk : List Nat → List Char
  | [a, b, c] =>
    [b64char (a / 4), b64char (a % 4 * 16 + b / 16),
     b64char (b % 16 * 4 + c / 64), b64char (c % 64)]
  | [a, b] =>
    [b64char (a / 4), b64char (a % 4 * 16 + b / 16), b64char (b % 16 * 4)]
  | [a] =>
    [b64char (a / 4), b64char (a % 4 * 16)]
  | _ => []

/-- Encode a byte list in three-byte groups. -/
def encodeIdAux : List Nat → List Char
  | a :: b :: c :: rest => encodeChunk [a, b, c] ++ encodeIdAux rest
  | rest => encodeChunk rest

/-- Modelled from the spec: the stable textual encoding of a binary network
or peer identifier (see `base64Alphabet`). -/
def encodeId (bytes : List Nat) : String :=
  String.mk (encodeIdAux bytes)

/-- The network context bound by `start` (interface `WithNetwork`). -/
structure WithNetwork where
  networkIdBinary : List Nat
  networkId : String
  debugNamespace : String
deriving Repr, DecidableEq

/-- The fields of `TransportOptions` consumed by `AbstractTransport.start`:
`networkId` (binary) and `networkName`. -/
structure TransportOptions where
  networkId : List Nat
  networkName : String
deriving Repr, DecidableEq

/-- Observable outputs of the transport: the transport-level events emitted
through `peerConnectEvent` / `peerDisconnectEvent`, and the
`peer.disconnect()` requests issued by `stop`. -/
inductive TOutput where
  | connectEvent (p : Nat)
  | disconnectEvent (p : Nat)
  | disconnectRequest (p : Nat)
deriving Repr, DecidableEq

/-- The mutable state of an `AbstractTransport` instance.  `peers` is the
tracked-peer `Set` (insertion order, no duplicates by construction);
`connectSubs` / `disconnectSubs` record, with multiplicity and in order,
the peers on whose connect / disconnect notification points `addPeer`
has registered a handler. -/
structure TransportState where
  transportName : String
  debugNs : String
  _started : Bool
  _network : Option WithNetwork
  peers : List Nat
  connectSubs : List Nat
  disconnectSubs : List Nat
deriving Repr, DecidableEq

/-- `started` getter. -/
def TransportState.started (s : TransportState) : Bool :=
  s._started

/-- JavaScript `Set.add`: append if not already a member. -/
def addToSet (l : List Nat) (p : Nat) : List Nat :=
  if p ∈ l then l else l ++ [p]

/-- JavaScript `Set.delete`: remove the element. -/
def removeFromSet (l : List Nat) (p : Nat) : List Nat :=
  l.filter fun x => x != p

/-- The constructor `new AbstractTransport(name)`. -/
def create (name : String) : TransportState :=
  { transportName := name
    debugNs := "ataraxia:no-network:" ++ name
    _started := false
    _network := none
    peers := []
    connectSubs := []
    disconnectSubs := [] }

/-- `AbstractTransport.start(options)`: returns the new state and the
boolean result. -/
def start (s : TransportState) (options : TransportOptions) :
    TransportState × Bool :=
  if s._started then (s, false)
  else
    let ns := "ataraxia:" ++ options.networkName ++ ":" ++ s.transportName
    ({ s with
        debugNs := ns
        _started := true
        _network := some
          { networkIdBinary := options.networkId
            networkId := encodeId options.networkId
            debugNamespace := ns } },
      true)

/-- `AbstractTransport.stop()`: returns the new state, the boolean result
and the `peer.disconnect()` requests issued to the tracked peers. -/
def stop (s : TransportState) : TransportState × Bool × List TOutput :=
  if !s._started then (s, false, [])
  else
    ({ s with _started := false }, true,
      s.peers.map TOutput.disconnectRequest)

/-- The `network` accessor: throws before the context has been bound. -/
inductive AccessError where
  | invalidState
deriving Repr, DecidableEq

/-- `AbstractTransport.network` getter. -/
def network (s : TransportState) : Except AccessError WithNetwork :=
  match s._network with
  | none => Except.error AccessError.invalidState
  | some n => Except.ok n

/-- The body of the `onConnect` closure created by `addPeer`: add the peer
to the tracked set and emit a transport-level connect event. -/
def runOnConnect (s : TransportState) (p : Nat) :
    TransportState × List TOutput :=
  ({ s with peers := addToSet s.peers p }, [TOutput.connectEvent p])

/-- The body of the disconnect closure created by `addPeer`: delete the
peer from the tracked set and emit a transport-level disconnect event. -/
def runOnDisconnect (s : TransportState) (p : Nat) :
    TransportState × List TOutput :=
  ({ s with peers := removeFromSet s.peers p }, [TOutput.disconnectEvent p])

/-- `AbstractTransport.addPeer(peer)`: registers the connect and disconnect
handlers, then, if the peer is already connected, runs the just-created
`onConnect` closure synchronously (one run, independent of earlier
registrations of the same peer). -/
def addPeer (s : TransportState) (p : Nat) (connected : Bool) :
    TransportState × List TOutput :=
  let s1 := { s with
      connectSubs := s.connectSubs ++ [p]
      disconnectSubs := s.disconnectSubs ++ [p] }
  if connected then runOnConnect s1 p else (s1, [])

/-- Run the `onConnect` handler `k` times (the peer's event dispatch
invokes every registered listener in registration order; all listeners
registered for peer `p` are copies of the same closure). -/
def dispatchConnect : Nat → TransportState → Nat → TransportState × List TOutput
  | 0, s, _ => (s, [])
  | Nat.succ n, s, p =>
    let r := runOnConnect s p
    let rest := dispatchConnect n r.1 p
    (rest.1, r.2 ++ rest.2)

/-- Run the disconnect handler `k` times. -/
def dispatchDisconnect : Nat → TransportState → Nat → TransportState × List TOutput
  | 0, s, _ => (s, [])
  | Nat.succ n, s, p =>
    let r := runOnDisconnect s p
    let rest := dispatchDisconnect n r.1 p
    (rest.1, r.2 ++ rest.2)

/-- Delivery of a connect notification by peer `p`: every handler that
`addPeer` registered on `p`'s connect notification point runs once. -/
def deliverConnect (s : TransportState) (p : Nat) :
    TransportState × List TOutput :=
  dispatchConnect (s.connectSubs.count p) s p

/-- Delivery of a disconnect notification by peer `p`. -/
def deliverDisconnect (s : TransportState) (p : Nat) :
    TransportState × List TOutput :=
  dispatchDisconnect (s.disconnectSubs.count p) s p

/-- World state: the transport plus ghost state about the environment.
`connected` is the set of peers whose own state is currently connected;
`addedWhileStarted` records the peers for which some `addPeer` call
happened while the transport's started flag was set. -/
structure WorldState where
  ts : TransportState
  connected : List Nat
  addedWhileStarted : List Nat
deriving Repr, DecidableEq

/-- Actions the environment can perform against the transport. -/
inductive WAction where
  | startA (options : TransportOptions)
  | stopA
  | addPeerA (p : Nat)
  | peerUp (p : Nat)
  | peerDown (p : Nat)
deriving Repr, DecidableEq

/-- One environment step: returns the next world and the outputs the
transport produced during the step.  `addPeerA` reads the peer's actual
connected state, as `addPeer` reads `peer.connected`; `peerUp` / `peerDown`
flip the peer's state and deliver the corresponding notification. -/
def wstep (w : WorldState) : WAction → WorldState × List TOutput
  | WAction.startA options =>
    let r := start w.ts options
    ({ w with ts := r.1 }, [])
  | WAction.stopA =>
    let r := stop w.ts
    ({ w with ts := r.1 }, r.2.2)
  | WAction.addPeerA p =>
    let r := addPeer w.ts p (decide (p ∈ w.connected))
    ({ w with
        ts := r.1
        addedWhileStarted :=
          if w.ts._started then addToSet w.addedWhileStarted p
          else w.addedWhileStarted },
      r.2)
  | WAction.peerUp p =>
    let r := deliverConnect w.ts p
    ({ w with ts := r.1, connected := addToSet w.connected p }, r.2)
  | WAction.peerDown p =>
    let r := deliverDisconnect w.ts p
    ({ w with ts := r.1, connected := removeFromSet w.connected p }, r.2)

/-- Run a list of environment actions, collecting all outputs. -/
def wrun (w : WorldState) : List WAction → WorldState × List TOutput
  | [] => (w, [])
  | a :: rest =>
    let r := wstep w a
    let r2 := wrun r.1 rest
    (r2.1, r.2 ++ r2.2)

/-- The world of a freshly constructed transport: no peer connected, no
peer registered. -/
def winit (name : String) : WorldState :=
  { ts := create name, connected := [], addedWhileStarted := [] }

/-- Does the action list contain a `start` call? -/
def hasStartA : List WAction → Bool
  | [] => false
  | WAction.startA _ :: _ => true
  | _ :: rest => hasStartA rest

/-- Inductive invariant tying the tracked-peer set to the ghost state:
the registration multisets for connect and disconnect coincide, and a
peer is tracked exactly when it is connected and registered. -/
def Inv (w : WorldState) : Prop :=
  w.ts.connectSubs = w.ts.disconnectSubs ∧
  ∀ p, p ∈ w.ts.peers ↔ (p ∈ w.connected ∧ p ∈ w.ts.connectSubs)

/-- Invariant relating the started flag to the bound context: a started
transport always has a bound network context. -/
def NetInv (s : TransportState) : Prop :=
  s._started = true → s._network.isSome = true

/-- A sample bound network context, used to instantiate theorems with
hypotheses at a concrete state. -/
def sampleNetwork : WithNetwork :=
  { networkIdBinary := [1], networkId := "AQ",
    debugNamespace := "ataraxia:n:w6" }

/-- A started transport with two tracked, registered peers; used to
instantiate theorems with hypotheses at a concrete state. -/
def sampleStarted : TransportState :=
  { transportName := "w6"
    debugNs := "ataraxia:n:w6"
    _started := true
    _network := some sampleNetwork
    peers := [1, 2]
    connectSubs := [1, 2]
    disconnectSubs := [1, 2] }

lemma mem_addToSet {l : List Nat} {p q : Nat} :
    q ∈ addToSet l p ↔ q ∈ l ∨ q = p := by
  unfold addToSet
  by_cases h : p ∈ l
  · simp only [if_pos h]
    constructor
    · exact Or.inl
    · rintro (hq | rfl)
      · exact hq
      · exact h
  · simp [if_neg h, List.mem_append]

lemma addToSet_self_mem (l : List Nat) (p : Nat) : p ∈ addToSet l p :=
  mem_addToSet.mpr (Or.inr rfl)

lemma addToSet_of_mem {l : List Nat} {p : Nat} (h : p ∈ l) :
    addToSet l p = l := by
  simp [addToSet, h]

lemma addToSet_of_not_mem {l : List Nat} {p : Nat} (h : p ∉ l) :
    addToSet l p = l ++ [p] := by
  simp [addToSet, h]

lemma addToSet_idem (l : List Nat) (p : Nat) :
    addToSet (addToSet l p) p = addToSet l p :=
  addToSet_of_mem (addToSet_self_mem l p)

lemma mem_removeFromSet {l : List Nat} {p q : Nat} :
    q ∈ removeFromSet l p ↔ q ∈ l ∧ q ≠ p := by
  simp [removeFromSet, List.mem_filter]

lemma removeFromSet_self_not_mem (l : List Nat) (p : Nat) :
    p ∉ removeFromSet l p := by
  intro h
  exact (mem_removeFromSet.mp h).2 rfl

lemma removeFromSet_of_not_mem {l : List Nat} {p : Nat} (h : p ∉ l) :
    removeFromSet l p = l := by
  unfold removeFromSet
  rw [List.filter_eq_self]
  intro a ha
  rw [bne_iff_ne]
  rintro rfl
  exact h ha

lemma removeFromSet_idem (l : List Nat) (p : Nat) :
    removeFromSet (removeFromSet l p) p = removeFromSet l p :=
  removeFromSet_of_not_mem (removeFromSet_self_not_mem l p)

lemma dispatchConnect_succ (n : Nat) (s : TransportState) (p : Nat) :
    dispatchConnect (n + 1) s p =
      ((dispatchConnect n { s with peers := addToSet s.peers p } p).1,
        TOutput.connectEvent p ::
          (dispatchConnect n { s with peers := addToSet s.peers p } p).2) :=
  rfl

lemma dispatchDisconnect_succ (n : Nat) (s : TransportState) (p : Nat) :
    dispatchDisconnect (n + 1) s p =
      ((dispatchDisconnect n { s with peers := removeFromSet s.peers p } p).1,
        TOutput.disconnectEvent p ::
          (dispatchDisconnect n
            { s with peers := removeFromSet s.peers p } p).2) :=
  rfl

lemma dispatchConnect_fst_succ (k : Nat) (s : TransportState) (p : Nat) :
    (dispatchConnect (k + 1) s p).1 =
      { s with peers := addToSet s.peers p } := by
  induction k generalizing s with
  | zero => rfl
  | succ n ih =>
    rw [dispatchConnect_succ, ih]
    simp [addToSet_idem]

lemma dispatchDisconnect_fst_succ (k : Nat) (s : TransportState) (p : Nat) :
    (dispatchDisconnect (k + 1) s p).1 =
      { s with peers := removeFromSet s.peers p } := by
  induction k generalizing s with
  | zero => rfl
  | succ n ih =>
    rw [dispatchDisconnect_succ, ih]
    simp [removeFromSet_idem]

lemma dispatchConnect_snd (k : Nat) (s : TransportState) (p : Nat) :
    (dispatchConnect k s p).2 =
      List.replicate k (TOutput.connectEvent p) := by
  induction k generalizing s with
  | zero => rfl
  | succ n ih =>
    rw [dispatchConnect_succ, ih]
    rfl

lemma dispatchDisconnect_snd (k : Nat) (s : TransportState) (p : Nat) :
    (dispatchDisconnect k s p).2 =
      List.replicate k (TOutput.disconnectEvent p) := by
  induction k generalizing s with
  | zero => rfl
  | succ n ih =>
    rw [dispatchDisconnect_succ, ih]
    rfl

lemma addPeer_true (s : TransportState) (p : Nat) :
    addPeer s p true =
      ({ s with
          connectSubs := s.connectSubs ++ [p]
          disconnectSubs := s.disconnectSubs ++ [p]
          peers := addToSet s.peers p },
        [TOutput.connectEvent p]) :=
  rfl

lemma addPeer_false (s : TransportState) (p : Nat) :
    addPeer s p false =
      ({ s with
          connectSubs := s.connectSubs ++ [p]
          disconnectSubs := s.disconnectSubs ++ [p] },
        []) :=
  rfl

lemma start_snd (s : TransportState) (o : TransportOptions) :
    (start s o).2 = !s._started := by
  unfold start
  cases h : s._started <;> simp [h]

lemma stop_snd (s : TransportState) : (stop s).2.1 = s._started := by
  unfold stop
  cases h : s._started <;> simp [h]

lemma start_fst_peers (s : TransportState) (o : TransportOptions) :
    (start s o).1.peers = s.peers := by
  unfold start
  cases h : s._started <;> simp [h]

lemma start_fst_connectSubs (s : TransportState) (o : TransportOptions) :
    (start s o).1.connectSubs = s.connectSubs := by
  unfold start
  cases h : s._started <;> simp [h]

lemma start_fst_disconnectSubs (s : TransportState) (o : TransportOptions) :
    (start s o).1.disconnectSubs = s.disconnectSubs := by
  unfold start
  cases h : s._started <;> simp [h]

lemma stop_fst (s : TransportState) :
    (stop s).1 = if s._started then { s with _started := false } else s := by
  unfold stop
  cases h : s._started <;> simp [h]

lemma stop_fst_peers (s : TransportState) : (stop s).1.peers = s.peers := by
  rw [stop_fst]
  cases h : s._started <;> simp

lemma stop_fst_connectSubs (s : TransportState) :
    (stop s).1.connectSubs = s.connectSubs := by
  rw [stop_fst]
  cases h : s._started <;> simp

lemma stop_fst_disconnectSubs (s : TransportState) :
    (stop s).1.disconnectSubs = s.disconnectSubs := by
  rw [stop_fst]
  cases h : s._started <;> simp

lemma stop_fst_network (s : TransportState) :
    (stop s).1._network = s._network := by
  rw [stop_fst]
  cases h : s._started <;> simp

lemma network_eq_error_iff (s : TransportState) :
    network s = Except.error AccessError.invalidState ↔
      s._network.isSome = false := by
  unfold network
  cases s._network <;> simp

lemma addPeer_fst_started (s : TransportState) (p : Nat) (c : Bool) :
    (addPeer s p c).1._started = s._started := by
  cases c <;> rfl

lemma addPeer_fst_network (s : TransportState) (p : Nat) (c : Bool) :
    (addPeer s p c).1._network = s._network := by
  cases c <;> rfl

lemma deliverConnect_fst_started (s : TransportState) (p : Nat) :
    (deliverConnect s p).1._started = s._started := by
  unfold deliverConnect
  cases hk : s.connectSubs.count p with
  | zero => rfl
  | succ n => rw [dispatchConnect_fst_succ]

lemma deliverConnect_fst_network (s : TransportState) (p : Nat) :
    (deliverConnect s p).1._network = s._network := by
  unfold deliverConnect
  cases hk : s.connectSubs.count p with
  | zero => rfl
  | succ n => rw [dispatchConnect_fst_succ]

lemma deliverDisconnect_fst_started (s : TransportState) (p : Nat) :
    (deliverDisconnect s p).1._started = s._started := by
  unfold deliverDisconnect
  cases hk : s.disconnectSubs.count p with
  | zero => rfl
  | succ n => rw [dispatchDisconnect_fst_succ]

lemma deliverDisconnect_fst_network (s : TransportState) (p : Nat) :
    (deliverDisconnect s p).1._network = s._network := by
  unfold deliverDisconnect
  cases hk : s.disconnectSubs.count p with
  | zero => rfl
  | succ n => rw [dispatchDisconnect_fst_succ]

lemma deliverConnect_fst_peers {s : TransportState} {p : Nat}
    (h : 0 < s.connectSubs.count p) :
    (deliverConnect s p).1.peers = addToSet s.peers p := by
  unfold deliverConnect
  cases hk : s.connectSubs.count p with
  | zero => omega
  | succ n => rw [dispatchConnect_fst_succ]

lemma deliverDisconnect_fst_peers {s : TransportState} {p : Nat}
    (h : 0 < s.disconnectSubs.count p) :
    (deliverDisconnect s p).1.peers = removeFromSet s.peers p := by
  unfold deliverDisconnect
  cases hk : s.disconnectSubs.count p with
  | zero => omega
  | succ n => rw [dispatchDisconnect_fst_succ]

lemma deliverConnect_snd_eq (s : TransportState) (p : Nat) :
    (deliverConnect s p).2 =
      List.replicate (s.connectSubs.count p) (TOutput.connectEvent p) := by
  unfold deliverConnect
  exact dispatchConnect_snd _ s p

lemma deliverDisconnect_snd_eq (s : TransportState) (p : Nat) :
    (deliverDisconnect s p).2 =
      List.replicate (s.disconnectSubs.count p) (TOutput.disconnectEvent p) := by
  unfold deliverDisconnect
  exact dispatchDisconnect_snd _ s p

lemma deliverDisconnect_fst_disconnectSubs (s : TransportState) (p : Nat) :
    (deliverDisconnect s p).1.disconnectSubs = s.disconnectSubs := by
  unfold deliverDisconnect
  cases hk : s.disconnectSubs.count p with
  | zero => rfl
  | succ n => rw [dispatchDisconnect_fst_succ]

lemma start_stop_results_general (s : TransportState) (o : TransportOptions) :
    ((start s o).2 = true ↔ s.started = false) ∧
    ((stop s).2.1 = true ↔ s.started = true) := by
  unfold TransportState.started
  rw [start_snd, stop_snd]
  cases s._started <;> simp

lemma inv_winit (name : String) : Inv (winit name) := by
  constructor
  · rfl
  · intro p
    simp [winit, create]

lemma inv_wstep {w : WorldState} (h : Inv w) (a : WAction) :
    Inv (wstep w a).1 := by
  obtain ⟨hsubs, hmem⟩ := h
  cases a with
  | startA o =>
    refine ⟨?_, ?_⟩
    · show (start w.ts o).1.connectSubs = (start w.ts o).1.disconnectSubs
      rw [start_fst_connectSubs, start_fst_disconnectSubs]
      exact hsubs
    · intro q
      show q ∈ (start w.ts o).1.peers ↔
        q ∈ w.connected ∧ q ∈ (start w.ts o).1.connectSubs
      rw [start_fst_peers, start_fst_connectSubs]
      exact hmem q
  | stopA =>
    refine ⟨?_, ?_⟩
    · show (stop w.ts).1.connectSubs = (stop w.ts).1.disconnectSubs
      rw [stop_fst_connectSubs, stop_fst_disconnectSubs]
      exact hsubs
    · intro q
      show q ∈ (stop w.ts).1.peers ↔
        q ∈ w.connected ∧ q ∈ (stop w.ts).1.connectSubs
      rw [stop_fst_peers, stop_fst_connectSubs]
      exact hmem q
  | addPeerA p =>
    by_cases hc : p ∈ w.connected
    · have hd : decide (p ∈ w.connected) = true := decide_eq_true hc
      refine ⟨?_, ?_⟩
      · show (addPeer w.ts p (decide (p ∈ w.connected))).1.connectSubs =
          (addPeer w.ts p (decide (p ∈ w.connected))).1.disconnectSubs
        rw [hd, addPeer_true]
        show w.ts.connectSubs ++ [p] = w.ts.disconnectSubs ++ [p]
        rw [hsubs]
      · intro q
        show q ∈ (addPeer w.ts p (decide (p ∈ w.connected))).1.peers ↔
          q ∈ w.connected ∧
            q ∈ (addPeer w.ts p (decide (p ∈ w.connected))).1.connectSubs
        rw [hd, addPeer_true]
        show q ∈ addToSet w.ts.peers p ↔
          q ∈ w.connected ∧ q ∈ w.ts.connectSubs ++ [p]
        rw [mem_addToSet, List.mem_append, List.mem_singleton]
        by_cases hq : q = p
        · subst hq
          simp [hc]
        · simp [hq, hmem q]
    · have hd : decide (p ∈ w.connected) = false := decide_eq_false hc
      refine ⟨?_, ?_⟩
      · show (addPeer w.ts p (decide (p ∈ w.connected))).1.connectSubs =
          (addPeer w.ts p (decide (p ∈ w.connected))).1.disconnectSubs
        rw [hd, addPeer_false]
        show w.ts.connectSubs ++ [p] = w.ts.disconnectSubs ++ [p]
        rw [hsubs]
      · intro q
        show q ∈ (addPeer w.ts p (decide (p ∈ w.connected))).1.peers ↔
          q ∈ w.connected ∧
            q ∈ (addPeer w.ts p (decide (p ∈ w.connected))).1.connectSubs
        rw [hd, addPeer_false]
        show q ∈ w.ts.peers ↔
          q ∈ w.connected ∧ q ∈ w.ts.connectSubs ++ [p]
        rw [List.mem_append, List.mem_singleton]
        by_cases hq : q = p
        · subst hq
          simp [hmem q, hc]
        · simp [hq, hmem q]
  | peerUp p =>
    cases hk : w.ts.connectSubs.count p with
    | zero =>
      have hts : (deliverConnect w.ts p).1 = w.ts := by
        unfold deliverConnect
        rw [hk]
        rfl
      have hnp : p ∉ w.ts.connectSubs := List.count_eq_zero.mp hk
      refine ⟨?_, ?_⟩
      · show (deliverConnect w.ts p).1.connectSubs =
          (deliverConnect w.ts p).1.disconnectSubs
        rw [hts]
        exact hsubs
      · intro q
        show q ∈ (deliverConnect w.ts p).1.peers ↔
          q ∈ addToSet w.connected p ∧
            q ∈ (deliverConnect w.ts p).1.connectSubs
        rw [hts, mem_addToSet]
        by_cases hq : q = p
        · subst hq
          simp [hmem q, hnp]
        · simp [hq, hmem q]
    | succ n =>
      have hts : (deliverConnect w.ts p).1 =
          { w.ts with peers := addToSet w.ts.peers p } := by
        unfold deliverConnect
        rw [hk]
        exact dispatchConnect_fst_succ n w.ts p
      have hp : p ∈ w.ts.connectSubs := by
        rw [← List.count_pos_iff]
        omega
      refine ⟨?_, ?_⟩
      · show (deliverConnect w.ts p).1.connectSubs =
          (deliverConnect w.ts p).1.disconnectSubs
        rw [hts]
        exact hsubs
      · intro q
        show q ∈ (deliverConnect w.ts p).1.peers ↔
          q ∈ addToSet w.connected p ∧
            q ∈ (deliverConnect w.ts p).1.connectSubs
        rw [hts]
        show q ∈ addToSet w.ts.peers p ↔
          q ∈ addToSet w.connected p ∧ q ∈ w.ts.connectSubs
        rw [mem_addToSet, mem_addToSet]
        by_cases hq : q = p
        · subst hq
          simp [hp]
        · simp [hq, hmem q]
  | peerDown p =>
    cases hk : w.ts.disconnectSubs.count p with
    | zero =>
      have hts : (deliverDisconnect w.ts p).1 = w.ts := by
        unfold deliverDisconnect
        rw [hk]
        rfl
      have hnp : p ∉ w.ts.connectSubs := by
        rw [hsubs]
        exact List.count_eq_zero.mp hk
      refine ⟨?_, ?_⟩
      · show (deliverDisconnect w.ts p).1.connectSubs =
          (deliverDisconnect w.ts p).1.disconnectSubs
        rw [hts]
        exact hsubs
      · intro q
        show q ∈ (deliverDisconnect w.ts p).1.peers ↔
          q ∈ removeFromSet w.connected p ∧
            q ∈ (deliverDisconnect w.ts p).1.connectSubs
        rw [hts, mem_removeFromSet]
        by_cases hq : q = p
        · subst hq
          simp [hmem q, hnp]
        · simp [hq, hmem q]
    | succ n =>
      have hts : (deliverDisconnect w.ts p).1 =
          { w.ts with peers := removeFromSet w.ts.peers p } := by
        unfold deliverDisconnect
        rw [hk]
        exact dispatchDisconnect_fst_succ n w.ts p
      refine ⟨?_, ?_⟩
      · show (deliverDisconnect w.ts p).1.connectSubs =
          (deliverDisconnect w.ts p).1.disconnectSubs
        rw [hts]
        exact hsubs
      · intro q
        show q ∈ (deliverDisconnect w.ts p).1.peers ↔
          q ∈ removeFromSet w.connected p ∧
            q ∈ (deliverDisconnect w.ts p).1.connectSubs
        rw [hts]
        show q ∈ removeFromSet w.ts.peers p ↔
          q ∈ removeFromSet w.connected p ∧ q ∈ w.ts.connectSubs
        rw [mem_removeFromSet, mem_removeFromSet]
        by_cases hq : q = p
        · subst hq
          simp
        · simp [hq, hmem q]

lemma inv_wrun {w : WorldState} (h : Inv w) (acts : List WAction) :
    Inv (wrun w acts).1 := by
  induction acts generalizing w with
  | nil => exact h
  | cons a rest ih => exact ih (inv_wstep h a)

lemma netInv_winit (name : String) : NetInv (winit name).ts := by
  intro hst
  simp [winit, create] at hst

lemma netInv_wstep {w : WorldState} (h : NetInv w.ts) (a : WAction) :
    NetInv (wstep w a).1.ts := by
  cases a with
  | startA o =>
    show NetInv (start w.ts o).1
    intro hst
    show (start w.ts o).1._network.isSome = true
    unfold start
    cases hs : w.ts._started with
    | true =>
      simp only [if_pos rfl]
      exact h hs
    | false =>
      simp
  | stopA =>
    show NetInv (stop w.ts).1
    unfold NetInv
    rw [stop_fst]
    cases hs : w.ts._started <;> simp [hs]
  | addPeerA p =>
    show NetInv (addPeer w.ts p (decide (p ∈ w.connected))).1
    unfold NetInv
    rw [addPeer_fst_started, addPeer_fst_network]
    exact h
  | peerUp p =>
    show NetInv (deliverConnect w.ts p).1
    unfold NetInv
    rw [deliverConnect_fst_started, deliverConnect_fst_network]
    exact h
  | peerDown p =>
    show NetInv (deliverDisconnect w.ts p).1
    unfold NetInv
    rw [deliverDisconnect_fst_started, deliverDisconnect_fst_network]
    exact h

lemma network_isSome_wrun (acts : List WAction) :
    ∀ w : WorldState, NetInv w.ts →
      (wrun w acts).1.ts._network.isSome =
        (hasStartA acts || w.ts._network.isSome) := by
  induction acts with
  | nil =>
    intro w _
    simp [wrun, hasStartA]
  | cons a rest ih =>
    intro w hw
    have hstep : (wrun w (a :: rest)).1 = (wrun (wstep w a).1 rest).1 := rfl
    rw [hstep, ih _ (netInv_wstep hw a)]
    cases a with
    | startA o =>
      show (hasStartA rest || (start w.ts o).1._network.isSome) =
        (true || w.ts._network.isSome)
      cases hs : w.ts._started with
      | true =>
        have hsome := hw hs
        simp [start, hs, hsome]
      | false =>
        simp [start, hs]
    | stopA =>
      show (hasStartA rest || (stop w.ts).1._network.isSome) =
        (hasStartA rest || w.ts._network.isSome)
      rw [stop_fst_network]
    | addPeerA p =>
      show (hasStartA rest ||
          (addPeer w.ts p (decide (p ∈ w.connected))).1._network.isSome) =
        (hasStartA rest || w.ts._network.isSome)
      rw [addPeer_fst_network]
    | peerUp p =>
      show (hasStartA rest || (deliverConnect w.ts p).1._network.isSome) =
        (hasStartA rest || w.ts._network.isSome)
      rw [deliverConnect_fst_network]
    | peerDown p =>
      show (hasStartA rest || (deliverDisconnect w.ts p).1._network.isSome) =
        (hasStartA rest || w.ts._network.isSome)
      rw [deliverDisconnect_fst_network]

/-- C1, counterexample: registering the same (disconnected) peer instance
twice and then delivering a single connect notification — one peer state
transition — fires the transport-level connect event twice, although the
tracked set holds the peer only once.  This refutes the claim that double
registration causes no duplicate events. -/
theorem addPeer_double_registration_counterexample :
    ((wrun (winit "t1") [WAction.addPeerA 0, WAction.addPeerA 0,
        WAction.peerUp 0]).2).count (TOutput.connectEvent 0) = 2 ∧
    (wrun (winit "t1") [WAction.addPeerA 0, WAction.addPeerA 0,
        WAction.peerUp 0]).1.ts.peers = [0] := by
  decide

/-- C1 (amended): calling `addPeer` twice with the same peer instance never
duplicates the tracked-set entry, but it registers the notification
handlers twice, so a single later connect transition fires one
transport-level connect event per registration (two events), and a second
registration of an already-connected peer fires one additional synchronous
connect event. -/
theorem addPeer_double_registration (s : TransportState) (p : Nat)
    (h1 : s.connectSubs.count p = 0) (h2 : p ∉ s.peers) :
    (addPeer (addPeer s p false).1 p false).1.peers = s.peers ∧
    (deliverConnect (addPeer (addPeer s p false).1 p false).1 p).1.peers.count
      p = 1 ∧
    (deliverConnect (addPeer (addPeer s p false).1 p false).1 p).2 =
      List.replicate 2 (TOutput.connectEvent p) ∧
    (addPeer (addPeer s p true).1 p true).2 = [TOutput.connectEvent p] ∧
    (addPeer (addPeer s p true).1 p true).1.peers.count p = 1 := by
  have hcs : (addPeer (addPeer s p false).1 p false).1.connectSubs =
      s.connectSubs ++ [p] ++ [p] := rfl
  have hpeers : (addPeer (addPeer s p false).1 p false).1.peers = s.peers := rfl
  have hcount :
      (addPeer (addPeer s p false).1 p false).1.connectSubs.count p = 2 := by
    rw [hcs]
    simp [List.count_append, h1]
  have hpos :
      0 < (addPeer (addPeer s p false).1 p false).1.connectSubs.count p := by
    rw [hcount]
    omega
  have haddc : (addToSet s.peers p).count p = 1 := by
    rw [addToSet_of_not_mem h2, List.count_append, List.count_eq_zero.mpr h2]
    simp
  refine ⟨hpeers, ?_, ?_, rfl, ?_⟩
  · rw [deliverConnect_fst_peers hpos, hpeers]
    exact haddc
  · rw [deliverConnect_snd_eq, hcount]
  · show (addToSet (addToSet s.peers p) p).count p = 1
    rw [addToSet_idem]
    exact haddc

/-- C1 witness: the amended double-registration theorem instantiated at a
freshly constructed transport and peer 5. -/
theorem addPeer_double_registration_witness :
    (addPeer (addPeer (create "w1") 5 false).1 5 false).1.peers =
      (create "w1").peers ∧
    (deliverConnect (addPeer (addPeer (create "w1") 5 false).1 5 false).1
      5).1.peers.count 5 = 1 ∧
    (deliverConnect (addPeer (addPeer (create "w1") 5 false).1 5 false).1
      5).2 = List.replicate 2 (TOutput.connectEvent 5) ∧
    (addPeer (addPeer (create "w1") 5 true).1 5 true).2 =
      [TOutput.connectEvent 5] ∧
    (addPeer (addPeer (create "w1") 5 true).1 5 true).1.peers.count 5 = 1 :=
  addPeer_double_registration (create "w1") 5 (by decide) (by decide)

/-- C2, counterexample: a reachable state (peer 0 connects, then is
registered, the transport never having been started) in which peer 0 is a
member of the tracked set although it was not added after the transport
was started — no `start` action ever occurred.  This refutes the claimed
biconditional. -/
theorem tracked_iff_counterexample :
    0 ∈ (wrun (winit "t2") [WAction.peerUp 0, WAction.addPeerA 0]).1.ts.peers ∧
    (wrun (winit "t2") [WAction.peerUp 0,
      WAction.addPeerA 0]).1.addedWhileStarted = [] ∧
    (wrun (winit "t2") [WAction.peerUp 0,
      WAction.addPeerA 0]).1.ts.started = false ∧
    hasStartA [WAction.peerUp 0, WAction.addPeerA 0] = false := by
  decide

/-- C2 (amended): invariant over every reachable world state — a peer is a
member of the tracked set if and only if it is currently in the connected
state and has been registered via `addPeer`, independently of whether the
transport is or ever was started. -/
theorem tracked_iff_connected_and_registered (name : String)
    (acts : List WAction) (p : Nat) :
    p ∈ (wrun (winit name) acts).1.ts.peers ↔
      (p ∈ (wrun (winit name) acts).1.connected ∧
        p ∈ (wrun (winit name) acts).1.ts.connectSubs) :=
  (inv_wrun (inv_winit name) acts).2 p

/-- C3, counterexample: a tracked peer that delivers a disconnect
notification twice (without an intervening connect) makes the transport
emit the transport-level disconnect event twice, refuting the claim that
the second notification fires no second event. -/
theorem second_disconnect_counterexample :
    ((wrun (winit "t3") [WAction.peerUp 7, WAction.addPeerA 7,
        WAction.peerDown 7, WAction.peerDown 7]).2).count
      (TOutput.disconnectEvent 7) = 2 := by
  decide

/-- C3 (amended): for a peer registered exactly once, a disconnect
notification removes the peer from the tracked set and fires exactly one
transport-level disconnect event; a second disconnect notification without
an intervening connect leaves the tracked set unchanged and raises no
error, but fires one further disconnect event, because the registered
handler emits unconditionally. -/
theorem disconnect_notification_events (s : TransportState) (p : Nat)
    (h1 : s.disconnectSubs.count p = 1) (h2 : p ∈ s.peers) :
    p ∉ (deliverDisconnect s p).1.peers ∧
    (deliverDisconnect s p).1.peers = removeFromSet s.peers p ∧
    (deliverDisconnect s p).2 = [TOutput.disconnectEvent p] ∧
    (deliverDisconnect (deliverDisconnect s p).1 p).1.peers =
      removeFromSet s.peers p ∧
    (deliverDisconnect (deliverDisconnect s p).1 p).2 =
      [TOutput.disconnectEvent p] := by
  have hpos : 0 < s.disconnectSubs.count p := by omega
  have e1 : (deliverDisconnect s p).1.peers = removeFromSet s.peers p :=
    deliverDisconnect_fst_peers hpos
  have e2 : (deliverDisconnect s p).2 = [TOutput.disconnectEvent p] := by
    rw [deliverDisconnect_snd_eq, h1]
    rfl
  have esubs : (deliverDisconnect s p).1.disconnectSubs = s.disconnectSubs :=
    deliverDisconnect_fst_disconnectSubs s p
  have hpos2 : 0 < (deliverDisconnect s p).1.disconnectSubs.count p := by
    rw [esubs]
    omega
  have e3 : (deliverDisconnect (deliverDisconnect s p).1 p).1.peers =
      removeFromSet s.peers p := by
    rw [deliverDisconnect_fst_peers hpos2, e1, removeFromSet_idem]
  have e4 : (deliverDisconnect (deliverDisconnect s p).1 p).2 =
      [TOutput.disconnectEvent p] := by
    rw [deliverDisconnect_snd_eq, esubs, h1]
    rfl
  refine ⟨?_, e1, e2, e3, e4⟩
  rw [e1]
  exact removeFromSet_self_not_mem s.peers p

/-- C3 witness: the amended disconnect-notification theorem instantiated
at the sample started transport and tracked peer 1. -/
theorem disconnect_notification_events_witness :
    1 ∉ (deliverDisconnect sampleStarted 1).1.peers ∧
    (deliverDisconnect sampleStarted 1).1.peers =
      removeFromSet sampleStarted.peers 1 ∧
    (deliverDisconnect sampleStarted 1).2 = [TOutput.disconnectEvent 1] ∧
    (deliverDisconnect (deliverDisconnect sampleStarted 1).1 1).1.peers =
      removeFromSet sampleStarted.peers 1 ∧
    (deliverDisconnect (deliverDisconnect sampleStarted 1).1 1).2 =
      [TOutput.disconnectEvent 1] :=
  disconnect_notification_events sampleStarted 1 (by decide) (by decide)

/-- C4: at every reachable state of a freshly constructed transport,
`start` returns `true` exactly when the transport is stopped at the time
of the call, and `stop` returns `true` exactly when it is started — so the
transport may be started and stopped repeatedly. -/
theorem start_stop_results (name : String) (acts : List WAction)
    (o : TransportOptions) :
    ((start (wrun (winit name) acts).1.ts o).2 = true ↔
      (wrun (winit name) acts).1.ts.started = false) ∧
    ((stop (wrun (winit name) acts).1.ts).2.1 = true ↔
      (wrun (winit name) acts).1.ts.started = true) :=
  start_stop_results_general (wrun (winit name) acts).1.ts o

/-- C5: registering an already-connected peer puts it in the tracked set
and fires exactly one connect event synchronously, within the `addPeer`
call; registering a disconnected peer leaves the tracked set unchanged and
fires nothing, and delivery of that peer's own connect notification then
adds it to the set and fires exactly one connect event carrying it. -/
theorem addPeer_connect_events (s : TransportState) (p : Nat)
    (h : s.connectSubs.count p = 0) :
    (p ∈ (addPeer s p true).1.peers ∧
      (addPeer s p true).2 = [TOutput.connectEvent p]) ∧
    ((addPeer s p false).1.peers = s.peers ∧
      (addPeer s p false).2 = [] ∧
      p ∈ (deliverConnect (addPeer s p false).1 p).1.peers ∧
      (deliverConnect (addPeer s p false).1 p).2 =
        [TOutput.connectEvent p]) := by
  have hcs : (addPeer s p false).1.connectSubs = s.connectSubs ++ [p] := rfl
  have hcount : (addPeer s p false).1.connectSubs.count p = 1 := by
    rw [hcs]
    simp [List.count_append, h]
  have hpos : 0 < (addPeer s p false).1.connectSubs.count p := by
    rw [hcount]
    omega
  refine ⟨⟨?_, rfl⟩, rfl, rfl, ?_, ?_⟩
  · show p ∈ addToSet s.peers p
    exact addToSet_self_mem s.peers p
  · rw [deliverConnect_fst_peers hpos]
    show p ∈ addToSet s.peers p
    exact addToSet_self_mem s.peers p
  · rw [deliverConnect_snd_eq, hcount]
    rfl

/-- C5 witness: the connect-event theorem instantiated at a freshly
constructed transport and peer 3. -/
theorem addPeer_connect_events_witness :
    (3 ∈ (addPeer (create "w5") 3 true).1.peers ∧
      (addPeer (create "w5") 3 true).2 = [TOutput.connectEvent 3]) ∧
    ((addPeer (create "w5") 3 false).1.peers = (create "w5").peers ∧
      (addPeer (create "w5") 3 false).2 = [] ∧
      3 ∈ (deliverConnect (addPeer (create "w5") 3 false).1 3).1.peers ∧
      (deliverConnect (addPeer (create "w5") 3 false).1 3).2 =
        [TOutput.connectEvent 3]) :=
  addPeer_connect_events (create "w5") 3 (by decide)

/-- C6: stopping a started transport issues one `disconnect()` request to
every currently tracked peer (exactly one per peer, the tracked set having
no duplicates), clears the started flag, returns `true`, and leaves the
tracked-peer set itself untouched; a second `stop` before any peer state
change returns `false`. -/
theorem stop_requests_disconnects (s : TransportState)
    (h1 : s.started = true) (h2 : s.peers.Nodup) :
    stop s = ({ s with _started := false }, true,
      s.peers.map TOutput.disconnectRequest) ∧
    (∀ p ∈ s.peers,
      (s.peers.map TOutput.disconnectRequest).count
        (TOutput.disconnectRequest p) = 1) ∧
    (stop (stop s).1).2.1 = false := by
  have hb : s._started = true := h1
  have hstop : stop s = ({ s with _started := false }, true,
      s.peers.map TOutput.disconnectRequest) := by
    unfold stop
    rw [hb]
    rfl
  refine ⟨hstop, ?_, ?_⟩
  · intro p hp
    have hinj : Function.Injective TOutput.disconnectRequest := by
      intro a b hab
      injection hab
    rw [List.count_map_of_injective _ _ hinj]
    exact List.count_eq_one_of_mem h2 hp
  · rw [stop_snd, hstop]

/-- C6 witness: the stop theorem instantiated at the sample started
transport, with the exactly-once part applied at tracked peer 1. -/
theorem stop_requests_disconnects_witness :
    stop sampleStarted = ({ sampleStarted with _started := false }, true,
      sampleStarted.peers.map TOutput.disconnectRequest) ∧
    (sampleStarted.peers.map TOutput.disconnectRequest).count
      (TOutput.disconnectRequest 1) = 1 ∧
    (stop (stop sampleStarted).1).2.1 = false := by
  have h := stop_requests_disconnects sampleStarted rfl (by decide)
  exact ⟨h.1, h.2.1 1 (by decide), h.2.2⟩

/-- C7: calling `start` on an already-started transport returns `false`
and changes nothing at all — the returned state is the argument state, so
the context is not rebound; from the stopped state, `start` binds the
supplied context (and the derived debug namespace), flips the started
flag, and returns `true`, leaving every other field unchanged. -/
theorem start_idempotent_binds (s : TransportState) (o : TransportOptions) :
    (s.started = true → start s o = (s, false)) ∧
    (s.started = false →
      (start s o).1 =
        { s with
            debugNs := "ataraxia:" ++ o.networkName ++ ":" ++ s.transportName
            _started := true
            _network := some
              { networkIdBinary := o.networkId
                networkId := encodeId o.networkId
                debugNamespace :=
                  "ataraxia:" ++ o.networkName ++ ":" ++ s.transportName } } ∧
      (start s o).2 = true) := by
  constructor
  · intro h
    have hb : s._started = true := h
    unfold start
    rw [hb]
    rfl
  · intro h
    have hb : s._started = false := h
    unfold start
    rw [hb]
    exact ⟨rfl, rfl⟩

/-- C7 witness: the idempotence part applied at the sample started
transport, and the binding part applied at a freshly constructed one. -/
theorem start_idempotent_binds_witness :
    start sampleStarted ⟨[9], "n9"⟩ = (sampleStarted, false) ∧
    ((start (create "w7") ⟨[1, 2, 3, 4], "example"⟩).1 =
      { create "w7" with
          debugNs := "ataraxia:" ++ "example" ++ ":" ++
            (create "w7").transportName
          _started := true
          _network := some
            { networkIdBinary := [1, 2, 3, 4]
              networkId := encodeId [1, 2, 3, 4]
              debugNamespace := "ataraxia:" ++ "example" ++ ":" ++
                (create "w7").transportName } } ∧
      (start (create "w7") ⟨[1, 2, 3, 4], "example"⟩).2 = true) :=
  ⟨(start_idempotent_binds sampleStarted ⟨[9], "n9"⟩).1 rfl,
    (start_idempotent_binds (create "w7") ⟨[1, 2, 3, 4], "example"⟩).2 rfl⟩

/-- C8: along every run from a freshly constructed transport, the
`network` accessor fails with the invalid-state condition exactly when no
`start` call has occurred since construction; and a `start` from the
stopped state binds a context whose values are exactly those derived from
the options — the binary id as passed, its stable textual encoding, and
the diagnostic namespace. -/
theorem network_accessor (name : String) (acts : List WAction)
    (s : TransportState) (o : TransportOptions) :
    ((network (wrun (winit name) acts).1.ts =
        Except.error AccessError.invalidState) ↔ hasStartA acts = false) ∧
    (s.started = false →
      network (start s o).1 = Except.ok
        { networkIdBinary := o.networkId
          networkId := encodeId o.networkId
          debugNamespace :=
            "ataraxia:" ++ o.networkName ++ ":" ++ s.transportName }) := by
  constructor
  · rw [network_eq_error_iff]
    rw [network_isSome_wrun acts (winit name) (netInv_winit name)]
    show (hasStartA acts || (none : Option WithNetwork).isSome) = false ↔
      hasStartA acts = false
    simp
  · intro h
    have hb : s._started = false := h
    unfold network start
    rw [hb]
    rfl

/-- C8 witness: the accessor theorem applied to a run consisting of a
single `stop` call (no start: the accessor fails) and to a fresh
transport started with the spec's example options. -/
theorem network_accessor_witness :
    ((network (wrun (winit "w8") [WAction.stopA]).1.ts =
        Except.error AccessError.invalidState) ↔
      hasStartA [WAction.stopA] = false) ∧
    (network (start (create "w8") ⟨[1, 2, 3, 4], "example"⟩).1 = Except.ok
      { networkIdBinary := [1, 2, 3, 4]
        networkId := encodeId [1, 2, 3, 4]
        debugNamespace := "ataraxia:" ++ "example" ++ ":" ++
          (create "w8").transportName }) :=
  ⟨(network_accessor "w8" [WAction.stopA] (create "w8")
      ⟨[1, 2, 3, 4], "example"⟩).1,
    (network_accessor "w8" [WAction.stopA] (create "w8")
      ⟨[1, 2, 3, 4], "example"⟩).2 rfl⟩

/-- C9: `addPeer` and event emission are not gated on the started flag: on
a stopped transport, registering an already-connected (fresh) peer adds it
to the tracked set and synchronously emits a connect event, the transport
remaining stopped; a subsequent disconnect notification from that peer
still removes it from the set and emits a disconnect event while the
transport is stopped. -/
theorem addPeer_not_gated_on_started (s : TransportState) (p : Nat)
    (h1 : s.started = false) (h2 : s.connectSubs.count p = 0)
    (h3 : s.disconnectSubs.count p = 0) :
    p ∈ (addPeer s p true).1.peers ∧
    (addPeer s p true).2 = [TOutput.connectEvent p] ∧
    (addPeer s p true).1.started = false ∧
    p ∉ (deliverDisconnect (addPeer s p true).1 p).1.peers ∧
    (deliverDisconnect (addPeer s p true).1 p).2 =
      [TOutput.disconnectEvent p] ∧
    (deliverDisconnect (addPeer s p true).1 p).1.started = false := by
  have hds : (addPeer s p true).1.disconnectSubs = s.disconnectSubs ++ [p] :=
    rfl
  have hcount : (addPeer s p true).1.disconnectSubs.count p = 1 := by
    rw [hds]
    simp [List.count_append, h3]
  have hpos : 0 < (addPeer s p true).1.disconnectSubs.count p := by
    rw [hcount]
    omega
  refine ⟨?_, rfl, ?_, ?_, ?_, ?_⟩
  · show p ∈ addToSet s.peers p
    exact addToSet_self_mem s.peers p
  · show (addPeer s p true).1._started = false
    rw [addPeer_fst_started]
    exact h1
  · rw [deliverDisconnect_fst_peers hpos]
    show p ∉ removeFromSet (addToSet s.peers p) p
    exact removeFromSet_self_not_mem _ p
  · rw [deliverDisconnect_snd_eq, hcount]
    rfl
  · show (deliverDisconnect (addPeer s p true).1 p).1._started = false
    rw [deliverDisconnect_fst_started, addPeer_fst_started]
    exact h1

/-- C9 witness: the ungated-registration theorem instantiated at a freshly
constructed (never started) transport and peer 4. -/
theorem addPeer_not_gated_on_started_witness :
    4 ∈ (addPeer (create "w9") 4 true).1.peers ∧
    (addPeer (create "w9") 4 true).2 = [TOutput.connectEvent 4] ∧
    (addPeer (create "w9") 4 true).1.started = false ∧
    4 ∉ (deliverDisconnect (addPeer (create "w9") 4 true).1 4).1.peers ∧
    (deliverDisconnect (addPeer (create "w9") 4 true).1 4).2 =
      [TOutput.disconnectEvent 4] ∧
    (deliverDisconnect (addPeer (create "w9") 4 true).1 4).1.started =
      false :=
  addPeer_not_gated_on_started (create "w9") 4 rfl (by decide) (by decide)

/-- C10: the bound network context survives `stop`: with a context bound,
after `stop` the accessor still returns that context without the
invalid-state error, and `stop` leaves the bound context, transport name,
debug namespace and tracked-peer set unchanged — on a started transport it
changes only the started flag. -/
theorem stop_preserves_network (s : TransportState) (n : WithNetwork)
    (h : s._network = some n) :
    network (stop s).1 = Except.ok n ∧
    (stop s).1._network = s._network ∧
    (stop s).1.transportName = s.transportName ∧
    (stop s).1.debugNs = s.debugNs ∧
    (stop s).1.peers = s.peers ∧
    (s.started = true → (stop s).1 = { s with _started := false }) := by
  refine ⟨?_, stop_fst_network s, ?_, ?_, stop_fst_peers s, ?_⟩
  · unfold network
    rw [stop_fst_network, h]
  · rw [stop_fst]
    cases hs : s._started <;> simp
  · rw [stop_fst]
    cases hs : s._started <;> simp
  · intro hb
    have hb2 : s._started = true := hb
    unfold stop
    rw [hb2]
    rfl

/-- C10 witness: the context-survives-stop theorem instantiated at the
sample started transport and its bound context, with the started-only
frame conjunct discharged. -/
theorem stop_preserves_network_witness :
    network (stop sampleStarted).1 = Except.ok sampleNetwork ∧
    (stop sampleStarted).1._network = sampleStarted._network ∧
    (stop sampleStarted).1.transportName = sampleStarted.transportName ∧
    (stop sampleStarted).1.debugNs = sampleStarted.debugNs ∧
    (stop sampleStarted).1.peers = sampleStarted.peers ∧
    (stop sampleStarted).1 = { sampleStarted with _started := false } := by
  have h := stop_preserves_network sampleStarted sampleNetwork rfl
  exact ⟨h.1, h.2.1, h.2.2.1, h.2.2.2.1, h.2.2.2.2.1, h.2.2.2.2.2 rfl⟩

end Ataraxia
